import Mathlib

set_option linter.dupNamespace false

/-!
Shallow embedding of hnakamur/go-zabbixsender (package `zabbix`, file
`sender.go`) in Lean 4.

Byte strings are modelled as `List Nat` (each element an octet value
0..255).  Go `string` values are modelled as Lean `String` (Go source
strings in this package are valid UTF-8).  Fallible Go functions
returning `(T, error)` are modelled as `Except String T`, the `String`
carrying the Go error message.

Behaviour of the Go standard library that `sender.go` calls
(`encoding/json`, `encoding/binary`, `fmt.Sscanf`, `io.ReadFull`,
`net.SplitHostPort`, `net.JoinHostPort`) is modelled from the library's
documented semantics, restricted where noted in the doc comments.
-/

namespace Zabbix

/-- `const defaultZabbixServerPort = 10051` -/
def defaultZabbixServerPort : Nat := 10051

/-- `const nonLargePacketSizeLimit = 1024 * 1024 * 1024 // 1GiB` -/
def nonLargePacketSizeLimit : Nat := 1024 * 1024 * 1024

/-- `var ErrRequestPacketSizeLimitExeeded = errors.New("request packet size limit exceeded")` -/
def ErrRequestPacketSizeLimitExeeded : String := "request packet size limit exceeded"

/-- `const protocol = "ZBXD"` as bytes: ASCII of Z, B, X, D. -/
def protocolBytes : List Nat := [90, 66, 88, 68]

/-- `const protocolFlagZabbixCommunications = '\x01'` -/
def protocolFlagZabbixCommunications : Nat := 1

/-- `const dataLenOffset = len(protocol) + 1` (= 5) -/
def dataLenOffset : Nat := 5

/-- `const dataLenLen = 4` -/
def dataLenLen : Nat := 4

/-- `const reservedLen = 4` -/
def reservedLen : Nat := 4

/-- `const headerLen = dataLenOffset + dataLenLen + reservedLen` (= 13) -/
def headerLen : Nat := dataLenOffset + dataLenLen + reservedLen

/-- `const requestType = "sender data"` -/
def requestType : String := "sender data"

/-- `type TrapperData struct { Host, Key, Value string }` with JSON tags
`host`, `key`, `value`.  Note: the struct in `sender.go` has no
timestamp (`Clock`/`Ns`) fields. -/
structure TrapperData where
  Host : String
  Key : String
  Value : String
deriving DecidableEq, Repr

/-- `type Response struct { Response, Info string; Processed, Failed, Total int; SecondsSpent float64 }`.
The four counters carry JSON tag `-` (not unmarshalled from JSON; they are
filled in by `parseResponse` from the info string).  `SecondsSpent` is
modelled as the exact rational value of the decimal token scanned by
`%f`; the Go code and its test compare values produced by one and the
same decimal-to-float64 conversion, so equality of the decimal values
faithfully models equality of the float64 values. -/
structure Response where
  Response : String
  Info : String
  Processed : Int
  Failed : Int
  Total : Int
  SecondsSpent : ℚ
deriving DecidableEq, Repr

/-- The Go zero value of `Response`, the state of the struct before
`json.Unmarshal` fills any field. -/
def Response.zero : Zabbix.Response :=
  { Response := "", Info := "", Processed := 0, Failed := 0, Total := 0, SecondsSpent := 0 }

/-- `func (r *Response) IsSucccess() bool { return r.Response == "success" && r.Failed == 0 }`
(the method name has three letters c in the source). -/
def Response.IsSucccess (r : Zabbix.Response) : Bool :=
  r.Response == "success" && r.Failed == 0

/-! ### Little-endian 32-bit integers (`encoding/binary`, `binary.LittleEndian`) -/

/-- `binary.LittleEndian.PutUint32`: the four bytes of `n % 2^32`,
least significant first. -/
def encodeU32LE (n : Nat) : List Nat :=
  [n % 256, n / 256 % 256, n / 65536 % 256, n / 16777216 % 256]

/-- `binary.LittleEndian.Uint32` on (the first four bytes of) a byte list. -/
def decodeU32LE (bs : List Nat) : Nat :=
  bs.getD 0 0 + 256 * bs.getD 1 0 + 65536 * bs.getD 2 0 + 16777216 * bs.getD 3 0

/-! ### UTF-8 encoding of characters (Go strings are UTF-8 byte sequences) -/

/-- The UTF-8 bytes of one Unicode scalar value. -/
def utf8EncodeChar (c : Char) : List Nat :=
  let n := c.toNat
  if n < 128 then [n]
  else if n < 2048 then [192 + n / 64, 128 + n % 64]
  else if n < 65536 then [224 + n / 4096, 128 + n / 64 % 64, 128 + n % 64]
  else [240 + n / 262144, 128 + n / 4096 % 64, 128 + n / 64 % 64, 128 + n % 64]

/-- The UTF-8 bytes of a string. -/
def strBytes (s : String) : List Nat :=
  s.data.foldr (fun c acc => utf8EncodeChar c ++ acc) []

/-! ### JSON encoding (`encoding/json`, as used by `json.NewEncoder(&b).Encode(req)`)

`json.Encoder.Encode` marshals its argument (with HTML escaping on, the
encoder's default) and appends a single newline byte. -/

/-- Lower-case hexadecimal digit as an ASCII byte. -/
def hexDigitByte (n : Nat) : Nat :=
  if n < 10 then 48 + n else 87 + n

/-- Go `encoding/json` escaping of one character of a string value, with
the encoder's default HTML escaping: quote and backslash are
backslash-escaped; newline, carriage return and tab use `\n`, `\r`, `\t`;
other control characters use `\u00XX`; the HTML-sensitive characters
`<`, `>`, `&` use the escapes \u003c, \u003e, \u0026; U+2028 and U+2029
use \u2028 and \u2029; every other character is copied as its UTF-8
bytes.  (Go additionally replaces invalid UTF-8 with U+FFFD; Lean
strings are always valid UTF-8, so that case does not arise.) -/
def escapeJSONChar (c : Char) : List Nat :=
  let n := c.toNat
  if n = 34 then [92, 34]
  else if n = 92 then [92, 92]
  else if n = 10 then [92, 110]
  else if n = 13 then [92, 114]
  else if n = 9 then [92, 116]
  else if n < 32 then [92, 117, 48, 48, hexDigitByte (n / 16), hexDigitByte (n % 16)]
  else if n = 60 then [92, 117, 48, 48, 51, 99]
  else if n = 62 then [92, 117, 48, 48, 51, 101]
  else if n = 38 then [92, 117, 48, 48, 50, 54]
  else if n = 8232 then [92, 117, 50, 48, 50, 56]
  else if n = 8233 then [92, 117, 50, 48, 50, 57]
  else utf8EncodeChar c

/-- A Go string marshalled as a JSON string value: quote, escaped
characters, quote. -/
def quoteJSONString (s : String) : List Nat :=
  [34] ++ s.data.foldr (fun c acc => escapeJSONChar c ++ acc) [] ++ [34]

/-- `json.Marshal` of one `TrapperData` value: an object with the tagged
fields in struct declaration order: host, key, value.
Byte 123 is the opening brace, 125 the closing brace, 44 the comma. -/
def trapperDataJSONBytes (d : TrapperData) : List Nat :=
  [123] ++ strBytes "\"host\":" ++ quoteJSONString d.Host
        ++ [44] ++ strBytes "\"key\":" ++ quoteJSONString d.Key
        ++ [44] ++ strBytes "\"value\":" ++ quoteJSONString d.Value
        ++ [125]

/-- `json.Marshal` of the `request` struct
`{ Request: "sender data", Data: data }`: the `request` field first, then
the `data` array.  A Go nil slice would marshal as `null`; the model's
`List` represents a non-nil slice, whose empty case marshals as `[]`
(the payload-length and size-limit properties below do not depend on
this distinction).  Byte 91 is the opening bracket, 93 the closing
bracket. -/
def requestJSONBytes (data : List TrapperData) : List Nat :=
  [123] ++ strBytes "\"request\":" ++ quoteJSONString requestType
        ++ [44] ++ strBytes "\"data\":"
        ++ [91] ++ (List.intercalate [44] (data.map trapperDataJSONBytes)) ++ [93]
        ++ [125]

/-- The bytes `json.NewEncoder(&b).Encode(req)` appends to the buffer:
the marshalled request followed by one newline byte (10). -/
def requestPayloadBytes (data : List TrapperData) : List Nat :=
  requestJSONBytes data ++ [10]

/-- `func buildRequestPacket(data []TrapperData) ([]byte, error)`.

The buffer is filled with the protocol magic, the flag byte, a
placeholder zero length field, the zero reserved field and the encoded
JSON payload; if the total length exceeds `nonLargePacketSizeLimit` the
size-limit error is returned, otherwise the length field is patched in
place with `uint32(packetLen - headerLen)`.  (`bytes.Buffer` writes and
JSON-encoding of these string-only structs cannot fail, so the only
error path is the size limit.) -/
def buildRequestPacket (data : List TrapperData) : Except String (List Nat) :=
  let packet := protocolBytes ++ [protocolFlagZabbixCommunications]
      ++ encodeU32LE 0 ++ encodeU32LE 0 ++ requestPayloadBytes data
  let packetLen := packet.length
  if packetLen > nonLargePacketSizeLimit then
    .error ErrRequestPacketSizeLimitExeeded
  else
    let dataLen := (packetLen - headerLen) % 4294967296
    .ok (packet.take dataLenOffset ++ encodeU32LE dataLen
          ++ packet.drop (dataLenOffset + dataLenLen))

/-! ### JSON decoding (`encoding/json`, as used by `json.Unmarshal(dataBuf, &resp)`)

The decoder is modelled for the `Response` struct: a top-level JSON
object whose members with (ASCII-case-insensitively) matching keys
`response` and `info` must be JSON strings; members with other keys are
validated and skipped; a top-level `null` leaves the struct at its zero
value.  Error messages are abbreviated tags (the Go originals carry
position and type detail); no claim below depends on their exact text. -/

/-- JSON whitespace: space, tab, newline, carriage return. -/
def jIsWs (b : Nat) : Bool := b == 32 || b == 9 || b == 10 || b == 13

def jSkipWs (s : List Nat) : List Nat := s.dropWhile (fun b => jIsWs b)

def jIsDigit (b : Nat) : Bool := 48 ≤ b && b ≤ 57

def jIsHexDigit (b : Nat) : Bool :=
  (48 ≤ b && b ≤ 57) || (97 ≤ b && b ≤ 102) || (65 ≤ b && b ≤ 70)

def jHexVal (b : Nat) : Nat :=
  if b ≤ 57 then b - 48 else if b ≤ 70 then b - 55 else b - 87

/-- A UTF-8 continuation byte. -/
def jIsCont (b : Nat) : Bool := 128 ≤ b && b ≤ 191

/-- `utf8.DecodeRune` (as used by the JSON decoder when copying
non-ASCII string content): decode one rune at the head of the byte
list, returning the rune and the number of bytes consumed; every
invalid sequence yields (U+FFFD, 1). -/
def utf8DecodeRune (s : List Nat) : Char × Nat :=
  match s with
  | [] => (Char.ofNat 65533, 1)
  | b0 :: rest =>
    if 194 ≤ b0 && b0 ≤ 223 then
      match rest with
      | b1 :: _ =>
        if jIsCont b1 then (Char.ofNat ((b0 - 192) * 64 + (b1 - 128)), 2)
        else (Char.ofNat 65533, 1)
      | [] => (Char.ofNat 65533, 1)
    else if 224 ≤ b0 && b0 ≤ 239 then
      match rest with
      | b1 :: b2 :: _ =>
        let lo1 := if b0 == 224 then 160 else 128
        let hi1 := if b0 == 237 then 159 else 191
        if lo1 ≤ b1 && b1 ≤ hi1 && jIsCont b2 then
          (Char.ofNat ((b0 - 224) * 4096 + (b1 - 128) * 64 + (b2 - 128)), 3)
        else (Char.ofNat 65533, 1)
      | _ => (Char.ofNat 65533, 1)
    else if 240 ≤ b0 && b0 ≤ 244 then
      match rest with
      | b1 :: b2 :: b3 :: _ =>
        let lo1 := if b0 == 240 then 144 else 128
        let hi1 := if b0 == 244 then 143 else 191
        if (lo1 ≤ b1 && b1 ≤ hi1) && jIsCont b2 && jIsCont b3 then
          (Char.ofNat ((b0 - 240) * 262144 + (b1 - 128) * 4096
            + (b2 - 128) * 64 + (b3 - 128)), 4)
        else (Char.ofNat 65533, 1)
      | _ => (Char.ofNat 65533, 1)
    else (Char.ofNat 65533, 1)

/-- The body of a JSON string literal, positioned after the opening
quote; returns the decoded characters and the input after the closing
quote.  Escapes follow the JSON grammar; `\uXXXX` surrogate pairs are
combined, lone surrogates become U+FFFD; raw control bytes are
rejected (as the Go scanner does). -/
def parseJSONStringBody (fuel : Nat) (s : List Nat) (acc : List Char) :
    Except String (List Char × List Nat) :=
  match fuel with
  | 0 => .error "unexpected end of JSON input"
  | fuel + 1 =>
    match s with
    | [] => .error "unexpected end of JSON input"
    | b :: rest =>
      if b == 34 then .ok (acc.reverse, rest)
      else if b == 92 then
        match rest with
        | [] => .error "unexpected end of JSON input"
        | e :: rest2 =>
          if e == 34 then parseJSONStringBody fuel rest2 (Char.ofNat 34 :: acc)
          else if e == 92 then parseJSONStringBody fuel rest2 (Char.ofNat 92 :: acc)
          else if e == 47 then parseJSONStringBody fuel rest2 (Char.ofNat 47 :: acc)
          else if e == 98 then parseJSONStringBody fuel rest2 (Char.ofNat 8 :: acc)
          else if e == 102 then parseJSONStringBody fuel rest2 (Char.ofNat 12 :: acc)
          else if e == 110 then parseJSONStringBody fuel rest2 (Char.ofNat 10 :: acc)
          else if e == 114 then parseJSONStringBody fuel rest2 (Char.ofNat 13 :: acc)
          else if e == 116 then parseJSONStringBody fuel rest2 (Char.ofNat 9 :: acc)
          else if e == 117 then
            match rest2 with
            | h1 :: h2 :: h3 :: h4 :: rest3 =>
              if jIsHexDigit h1 && jIsHexDigit h2 && jIsHexDigit h3 && jIsHexDigit h4 then
                let cp := jHexVal h1 * 4096 + jHexVal h2 * 256 + jHexVal h3 * 16 + jHexVal h4
                if 55296 ≤ cp && cp ≤ 56319 then
                  match rest3 with
                  | 92 :: 117 :: g1 :: g2 :: g3 :: g4 :: rest4 =>
                    if jIsHexDigit g1 && jIsHexDigit g2 && jIsHexDigit g3 && jIsHexDigit g4 then
                      let cp2 := jHexVal g1 * 4096 + jHexVal g2 * 256
                          + jHexVal g3 * 16 + jHexVal g4
                      if 56320 ≤ cp2 && cp2 ≤ 57343 then
                        parseJSONStringBody fuel rest4
                          (Char.ofNat (65536 + (cp - 55296) * 1024 + (cp2 - 56320)) :: acc)
                      else parseJSONStringBody fuel rest3 (Char.ofNat 65533 :: acc)
                    else parseJSONStringBody fuel rest3 (Char.ofNat 65533 :: acc)
                  | _ => parseJSONStringBody fuel rest3 (Char.ofNat 65533 :: acc)
                else if 56320 ≤ cp && cp ≤ 57343 then
                  parseJSONStringBody fuel rest3 (Char.ofNat 65533 :: acc)
                else parseJSONStringBody fuel rest3 (Char.ofNat cp :: acc)
              else .error "invalid hexadecimal character escape"
            | _ => .error "unexpected end of JSON input"
          else .error "invalid character in string escape code"
      else if b < 32 then .error "invalid character in string literal"
      else if b < 128 then parseJSONStringBody fuel rest (Char.ofNat b :: acc)
      else
        let d := utf8DecodeRune (b :: rest)
        parseJSONStringBody fuel ((b :: rest).drop d.2) (d.1 :: acc)

/-- Validate a JSON number at the head of the input and return the
remainder: `-? (0 | [1-9][0-9]*) (. [0-9]+)? ([eE][+-]?[0-9]+)?`. -/
def parseJSONNumber (s : List Nat) : Except String (List Nat) := do
  let s1 := match s with | 45 :: r => r | _ => s
  let s2 ← (match s1 with
    | 48 :: r =>
      match r with
      | b :: _ => if jIsDigit b then .error "invalid number" else .ok r
      | [] => .ok r
    | b :: r =>
      if 49 ≤ b && b ≤ 57 then .ok (r.dropWhile (fun x => jIsDigit x))
      else .error "invalid number"
    | [] => .error "invalid number")
  let s3 ← (match s2 with
    | 46 :: r =>
      match r with
      | b :: _ =>
        if jIsDigit b then .ok (r.dropWhile (fun x => jIsDigit x))
        else .error "invalid number"
      | [] => .error "invalid number"
    | _ => .ok s2)
  match s3 with
  | 101 :: r | 69 :: r =>
    let r1 := match r with | 43 :: q => q | 45 :: q => q | _ => r
    match r1 with
    | b :: _ =>
      if jIsDigit b then .ok (r1.dropWhile (fun x => jIsDigit x))
      else .error "invalid number"
    | [] => .error "invalid number"
  | _ => .ok s3

mutual

/-- Validate and skip one JSON value at the head of the (whitespace
prefixed) input, returning the remainder.  Used for members of the
top-level object whose key matches no `Response` field. -/
def skipJSONValue : Nat → List Nat → Except String (List Nat)
  | 0, _ => .error "unexpected end of JSON input"
  | fuel + 1, s =>
    match jSkipWs s with
    | [] => .error "unexpected end of JSON input"
    | b :: rest =>
      if b == 34 then do
        let r ← parseJSONStringBody (rest.length + 1) rest []
        .ok r.2
      else if b == 123 then skipJSONObjectBody fuel rest true
      else if b == 91 then skipJSONArrayBody fuel rest true
      else if b == 116 then
        match rest with
        | 114 :: 117 :: 101 :: r => .ok r
        | _ => .error "invalid literal"
      else if b == 102 then
        match rest with
        | 97 :: 108 :: 115 :: 101 :: r => .ok r
        | _ => .error "invalid literal"
      else if b == 110 then
        match rest with
        | 117 :: 108 :: 108 :: r => .ok r
        | _ => .error "invalid literal"
      else if b == 45 || jIsDigit b then parseJSONNumber (b :: rest)
      else .error "invalid character looking for beginning of value"

/-- Skip the members of a JSON object, positioned after the opening
brace (`first = true`) or after a comma (`first = false`). -/
def skipJSONObjectBody : Nat → List Nat → Bool → Except String (List Nat)
  | 0, _, _ => .error "unexpected end of JSON input"
  | fuel + 1, s, first =>
    match jSkipWs s with
    | [] => .error "unexpected end of JSON input"
    | b :: rest =>
      if b == 125 && first then .ok rest
      else if b == 34 then do
        let kv ← parseJSONStringBody (rest.length + 1) rest []
        match jSkipWs kv.2 with
        | 58 :: r2 => do
          let r3 ← skipJSONValue fuel r2
          match jSkipWs r3 with
          | 44 :: r4 => skipJSONObjectBody fuel r4 false
          | 125 :: r4 => .ok r4
          | _ => .error "invalid character after object key:value pair"
        | _ => .error "invalid character after object key"
      else .error "invalid character looking for beginning of object key string"

/-- Skip the elements of a JSON array, positioned after the opening
bracket (`first = true`) or after a comma (`first = false`). -/
def skipJSONArrayBody : Nat → List Nat → Bool → Except String (List Nat)
  | 0, _, _ => .error "unexpected end of JSON input"
  | fuel + 1, s, first =>
    match jSkipWs s with
    | [] => .error "unexpected end of JSON input"
    | b :: rest =>
      if b == 93 && first then .ok rest
      else do
        let r ← skipJSONValue fuel (b :: rest)
        match jSkipWs r with
        | 44 :: r2 => skipJSONArrayBody fuel r2 false
        | 93 :: r2 => .ok r2
        | _ => .error "invalid character after array element"

end

/-- ASCII-case-insensitive equality of JSON object keys with a struct
field tag, as Go's field matching does. -/
def asciiFoldChar (c : Char) : Char :=
  if 65 ≤ c.toNat && c.toNat ≤ 90 then Char.ofNat (c.toNat + 32) else c

def keyMatches (key : List Char) (tag : String) : Bool :=
  key.map asciiFoldChar == tag.data.map asciiFoldChar

/-- The members of the top-level object, accumulating the `response`
and `info` fields (later duplicate keys overwrite earlier ones, as in
Go); members with matching keys must be JSON strings, all others are
skipped.  Positioned after the opening brace (`first = true`) or after
a comma. -/
def parseResponseMembers (fuel : Nat) (s : List Nat) (first : Bool)
    (acc : String × String) : Except String ((String × String) × List Nat) :=
  match fuel with
  | 0 => .error "unexpected end of JSON input"
  | fuel + 1 =>
    match jSkipWs s with
    | [] => .error "unexpected end of JSON input"
    | b :: rest =>
      if b == 125 && first then .ok (acc, rest)
      else if b == 34 then do
        let kv ← parseJSONStringBody (rest.length + 1) rest []
        let key := kv.1
        match jSkipWs kv.2 with
        | 58 :: r2 =>
          let isResp := keyMatches key "response"
          let isInfo := keyMatches key "info"
          if isResp || isInfo then
            match jSkipWs r2 with
            | 34 :: r3 => do
              let sv ← parseJSONStringBody (r3.length + 1) r3 []
              let acc2 := if isResp then (String.mk sv.1, acc.2) else (acc.1, String.mk sv.1)
              match jSkipWs sv.2 with
              | 44 :: r4 => parseResponseMembers fuel r4 false acc2
              | 125 :: r4 => .ok (acc2, r4)
              | _ => .error "invalid character after object key:value pair"
            | _ => .error "json: cannot unmarshal value into Go struct field of type string"
          else do
            let r3 ← skipJSONValue (r2.length + 1) r2
            match jSkipWs r3 with
            | 44 :: r4 => parseResponseMembers fuel r4 false acc
            | 125 :: r4 => .ok (acc, r4)
            | _ => .error "invalid character after object key:value pair"
        | _ => .error "invalid character after object key"
      else .error "invalid character looking for beginning of object key string"

/-- `json.Unmarshal(dataBuf, &resp)` for `resp` of type `Response`:
the input must be one top-level JSON value followed only by
whitespace; an object fills the two tagged string fields; `null`
leaves the zero value; any other top-level value is a type error. -/
def jsonUnmarshalResponse (bs : List Nat) : Except String Zabbix.Response :=
  match jSkipWs bs with
  | [] => .error "unexpected end of JSON input"
  | b :: rest =>
    if b == 123 then
      match parseResponseMembers (rest.length + 1) rest true ("", "") with
      | .error e => .error e
      | .ok (acc, rem) =>
        match jSkipWs rem with
        | [] => .ok { Response.zero with Response := acc.1, Info := acc.2 }
        | _ => .error "invalid character after top-level value"
    else if b == 110 then
      match rest with
      | 117 :: 108 :: 108 :: r =>
        match jSkipWs r with
        | [] => .ok Response.zero
        | _ => .error "invalid character after top-level value"
      | _ => .error "invalid literal"
    else .error "json: cannot unmarshal value into Go value of type zabbix.Response"

/-! ### `fmt.Sscanf(resp.Info, "processed: %d; failed: %d; total: %d; seconds spent: %f", ...)`

Modelled from the documented semantics of `fmt`'s scanning: a space in
the format matches any number of spaces in the input (including none);
any other format character must match the input exactly (mismatch:
"input does not match format"; input exhausted: "unexpected EOF");
`%d` skips leading spaces and scans an optionally signed decimal
integer; `%f` skips leading spaces and scans an optionally signed
decimal floating-point token with optional fraction and exponent.
Not modelled (never produced by the scanned template and irrelevant to
the claims): `Inf`/`NaN` and hexadecimal float tokens for `%f`; the Go
scanner's exact error text for a malformed numeric token is abbreviated
to "expected integer" / "expected float". -/

def dropSpaces (s : List Char) : List Char := s.dropWhile (fun c => c == ' ')

def isDigitChar (c : Char) : Bool := 48 ≤ c.toNat && c.toNat ≤ 57

/-- Match a literal fragment of the format string against the input. -/
def matchLiteral : List Char → List Char → Except String (List Char)
  | [], s => .ok s
  | f :: fs, s =>
    if f == ' ' then matchLiteral fs (dropSpaces s)
    else
      match s with
      | [] => .error "unexpected EOF"
      | c :: cs => if c == f then matchLiteral fs cs else .error "input does not match format"

def digitsToNat (ds : List Char) : Nat :=
  ds.foldl (fun acc c => acc * 10 + (c.toNat - 48)) 0

/-- The `%d` verb: optional sign, one or more decimal digits. -/
def scanIntToken (s : List Char) : Except String (Int × List Char) :=
  match dropSpaces s with
  | [] => .error "EOF"
  | c :: cs =>
    let sign : Int := if c == Char.ofNat 45 then -1 else 1
    let s1 := if c == Char.ofNat 45 || c == Char.ofNat 43 then cs else c :: cs
    let ds := s1.takeWhile (fun x => isDigitChar x)
    if ds.isEmpty then .error "expected integer"
    else .ok (sign * (digitsToNat ds : Int), s1.dropWhile (fun x => isDigitChar x))

/-- The `%f` verb: optional sign, digits with optional fraction
(at least one digit on one side of the dot) and optional exponent.
The scanned decimal token is returned as an exact rational. -/
def scanFloatToken (s : List Char) : Except String (ℚ × List Char) :=
  match dropSpaces s with
  | [] => .error "EOF"
  | c :: cs =>
    let sign : ℚ := if c == Char.ofNat 45 then -1 else 1
    let s1 := if c == Char.ofNat 45 || c == Char.ofNat 43 then cs else c :: cs
    let ids := s1.takeWhile (fun x => isDigitChar x)
    let r1 := s1.dropWhile (fun x => isDigitChar x)
    let fr : List Char × List Char :=
      match r1 with
      | d :: ds =>
        if d == Char.ofNat 46 then
          (ds.takeWhile (fun x => isDigitChar x), ds.dropWhile (fun x => isDigitChar x))
        else ([], r1)
      | [] => ([], r1)
    let fds := fr.1
    let r2 := fr.2
    if ids.isEmpty && fds.isEmpty then .error "expected float"
    else
      let mant : ℚ := sign * ((digitsToNat ids : ℚ) + (digitsToNat fds : ℚ) / 10 ^ fds.length)
      match r2 with
      | e :: es =>
        if e == Char.ofNat 101 || e == Char.ofNat 69 then
          let esign : Bool := es.head? = some (Char.ofNat 45)
          let es1 := if es.head? = some (Char.ofNat 45) || es.head? = some (Char.ofNat 43)
            then es.tail else es
          let eds := es1.takeWhile (fun x => isDigitChar x)
          if eds.isEmpty then .error "expected float"
          else
            let ev := digitsToNat eds
            let v : ℚ := if esign then mant / 10 ^ ev else mant * 10 ^ ev
            .ok (v, es1.dropWhile (fun x => isDigitChar x))
        else .ok (mant, r2)
      | [] => .ok (mant, r2)

/-- The whole `fmt.Sscanf` call of `parseResponse` on the info string:
on success all four values are scanned (so the source's `n != 4` check
cannot fire on the success path). -/
def scanInfo (info : String) : Except String (Int × Int × Int × ℚ) := do
  let s1 ← matchLiteral "processed: ".data info.data
  let p ← scanIntToken s1
  let s2 ← matchLiteral "; failed: ".data p.2
  let f ← scanIntToken s2
  let s3 ← matchLiteral "; total: ".data f.2
  let t ← scanIntToken s3
  let s4 ← matchLiteral "; seconds spent: ".data t.2
  let sec ← scanFloatToken s4
  return (p.1, f.1, t.1, sec.1)

/-! ### `parseResponse` -/

deriving instance DecidableEq for Except

/-- Result of `parseResponse` on a finite input stream together with
the number of bytes it consumed from the stream (`io.ReadFull` reads
exactly the requested count on success and everything available on a
short read). -/
structure ParseOutcome where
  result : Except String Zabbix.Response
  consumed : Nat
deriving DecidableEq, Repr

/-- `func parseResponse(r io.Reader) (*Response, error)`, over a finite
byte stream.  Steps as in the source: read the 13-byte header
(`io.ReadFull`, wrapping its error; the error is `EOF` when nothing was
available, `unexpected EOF` on a short read); check the 4-byte magic
with `bytes.HasPrefix`; check the flag byte; read the little-endian
length field from bytes 5..8; read that many payload bytes; unmarshal
the JSON; scan the info string; return the populated `Response`. -/
def parseResponseAux (s : List Nat) : ParseOutcome :=
  if s.length < headerLen then
    { result := .error ("read response header: "
        ++ (if s.length = 0 then "EOF" else "unexpected EOF")),
      consumed := s.length }
  else
    let headerBuf := s.take headerLen
    let rest := s.drop headerLen
    if ¬ (List.isPrefixOf protocolBytes headerBuf) then
      { result := .error "unexpected response protocol", consumed := headerLen }
    else if headerBuf.getD 4 0 ≠ protocolFlagZabbixCommunications then
      { result := .error "unsupported response protocol flag", consumed := headerLen }
    else
      let dataLen := decodeU32LE ((headerBuf.drop dataLenOffset).take dataLenLen)
      if rest.length < dataLen then
        { result := .error ("read response data: "
            ++ (if rest.length = 0 then "EOF" else "unexpected EOF")),
          consumed := s.length }
      else
        let dataBuf := rest.take dataLen
        match jsonUnmarshalResponse dataBuf with
        | .error e =>
          { result := .error ("unmarshal response: " ++ e),
            consumed := headerLen + dataLen }
        | .ok resp =>
          match scanInfo resp.Info with
          | .error e =>
            { result := .error ("parse response info: " ++ e),
              consumed := headerLen + dataLen }
          | .ok v =>
            { result := .ok { resp with
                Processed := v.1, Failed := v.2.1, Total := v.2.2.1,
                SecondsSpent := v.2.2.2 },
              consumed := headerLen + dataLen }

def parseResponse (s : List Nat) : Except String Zabbix.Response :=
  (parseResponseAux s).result

def parseResponseConsumed (s : List Nat) : Nat :=
  (parseResponseAux s).consumed

/-- A well-formed response frame around a JSON body, exactly as the
spec's end-to-end scenario builds it: magic, flag 0x01, little-endian
payload length, zero reserved field, body. -/
def mkFrame (body : List Nat) : List Nat :=
  protocolBytes ++ [protocolFlagZabbixCommunications] ++ encodeU32LE body.length
    ++ [0, 0, 0, 0] ++ body

/-! ### Address normalization (`net.SplitHostPort`, `net.JoinHostPort`) -/

/-- Index of the last occurrence of a character (Go's `last` helper in
`net.SplitHostPort` scans for the last colon). -/
def lastIndexOfChar (cs : List Char) (c : Char) : Option Nat :=
  match cs.reverse.findIdx? (fun x => x == c) with
  | some j => some (cs.length - 1 - j)
  | none => none

/-- `net.SplitHostPort`: the port starts after the last colon; a host
containing colons must be bracketed; errors as in the Go source
("missing port in address", "too many colons in address",
"missing ']' in address", "unexpected '[' in address",
"unexpected ']' in address").  Character 58 is the colon, 91 the
opening bracket, 93 the closing bracket. -/
def splitHostPort (hostport : String) : Except String (String × String) :=
  let cs := hostport.data
  match lastIndexOfChar cs (Char.ofNat 58) with
  | none => .error "missing port in address"
  | some i =>
    if cs.head? = some (Char.ofNat 91) then
      match cs.findIdx? (fun x => x == Char.ofNat 93) with
      | none => .error "missing ']' in address"
      | some endi =>
        if endi + 1 = cs.length then .error "missing port in address"
        else if endi + 1 = i then
          if (cs.drop 1).contains (Char.ofNat 91) then .error "unexpected '[' in address"
          else if (cs.drop (endi + 1)).contains (Char.ofNat 93) then
            .error "unexpected ']' in address"
          else .ok (String.mk ((cs.drop 1).take (endi - 1)), String.mk (cs.drop (i + 1)))
        else
          if cs.getD (endi + 1) (Char.ofNat 0) = Char.ofNat 58 then
            .error "too many colons in address"
          else .error "missing port in address"
    else
      if (cs.take i).contains (Char.ofNat 58) then .error "too many colons in address"
      else if cs.contains (Char.ofNat 91) then .error "unexpected '[' in address"
      else if cs.contains (Char.ofNat 93) then .error "unexpected ']' in address"
      else .ok (String.mk (cs.take i), String.mk (cs.drop (i + 1)))

/-- `net.JoinHostPort`: brackets the host when it contains a colon. -/
def joinHostPort (host port : String) : String :=
  if host.data.contains (Char.ofNat 58) then "[" ++ host ++ "]:" ++ port
  else host ++ ":" ++ port

/-- `func addDefaultPortToAddressIfNeeded(addr string) string`: append
the default port (`strconv.Itoa(defaultZabbixServerPort)`) when
`net.SplitHostPort` fails, otherwise return the address unchanged. -/
def addDefaultPortToAddressIfNeeded (addr : String) : String :=
  match splitHostPort addr with
  | .error _ => joinHostPort addr (Nat.repr defaultZabbixServerPort)
  | .ok _ => addr

/-! ### Concrete test vectors (from `sender_test.go` and the spec's scenarios) -/

/-- The info string of the test vector in `sender_test.go`. -/
def testResponseInfo : String :=
  "processed: 1; failed: 0; total: 1; seconds spent: 0.060753"

/-- The JSON body of the response packet in `TestParseResponse`
(90 = 0x5A bytes). -/
def testResponseJSON : List Nat :=
  [123] ++ strBytes
    "\"response\":\"success\",\"info\":\"processed: 1; failed: 0; total: 1; seconds spent: 0.060753\""
    ++ [125]

/-- The full response packet of `TestParseResponse`:
`"ZBXD\x01" + "\x5A\x00\x00\x00" + "\x00\x00\x00\x00" + json`. -/
def testResponseStream : List Nat :=
  protocolBytes ++ [1] ++ [90, 0, 0, 0] ++ [0, 0, 0, 0] ++ testResponseJSON

/-- A response body whose info string carries only three of the four
template values (the spec's negative info-string case). -/
def shortInfoBody : List Nat :=
  [123] ++ strBytes "\"response\":\"success\",\"info\":\"processed: 1; failed: 0; total: 1\""
    ++ [125]

/-- The `Response` that `json.Unmarshal` produces for `shortInfoBody`. -/
def shortInfoResp : Zabbix.Response :=
  { Response.zero with Response := "success", Info := "processed: 1; failed: 0; total: 1" }

/-- A response body whose info string matches the template nowhere. -/
def bogusInfoBody : List Nat :=
  [123] ++ strBytes "\"response\":\"success\",\"info\":\"zzz\"" ++ [125]

/-- The `Response` that `json.Unmarshal` produces for `bogusInfoBody`. -/
def bogusInfoResp : Zabbix.Response :=
  { Response.zero with Response := "success", Info := "zzz" }

/-- The packet `buildRequestPacket` returns for the empty batch
(used to witness the header/length theorems at a concrete input). -/
def emptyBatchPacket : List Nat :=
  match buildRequestPacket [] with
  | .ok p => p
  | .error _ => []

theorem decodeU32LE_encodeU32LE (n : Nat) (h : n < 4294967296) :
    decodeU32LE (encodeU32LE n) = n := by
  show n % 256 + 256 * (n / 256 % 256) + 65536 * (n / 65536 % 256)
      + 16777216 * (n / 16777216 % 256) = n
  omega

/-! ### Structure of `buildRequestPacket`'s result -/

/-- The assembled packet before the length field is patched. -/
theorem buildPacket_prePatch_length (data : List TrapperData) :
    (protocolBytes ++ [protocolFlagZabbixCommunications] ++ encodeU32LE 0 ++ encodeU32LE 0
      ++ requestPayloadBytes data).length
      = headerLen + (requestPayloadBytes data).length := by
  simp [protocolBytes, protocolFlagZabbixCommunications, encodeU32LE, headerLen,
    dataLenOffset, dataLenLen, reservedLen]
  omega

/-- Case analysis on `buildRequestPacket`: either the assembled packet is
over the limit and the size-limit error is returned, or the packet is
returned with the length field patched to the payload length. -/
theorem buildRequestPacket_cases (data : List TrapperData) :
    (headerLen + (requestPayloadBytes data).length > nonLargePacketSizeLimit ∧
      buildRequestPacket data = .error ErrRequestPacketSizeLimitExeeded) ∨
    (headerLen + (requestPayloadBytes data).length ≤ nonLargePacketSizeLimit ∧
      buildRequestPacket data = .ok
        ([90, 66, 88, 68, 1] ++ encodeU32LE (requestPayloadBytes data).length
          ++ ([0, 0, 0, 0] ++ requestPayloadBytes data))) := by
  by_cases hc : headerLen + (requestPayloadBytes data).length > nonLargePacketSizeLimit
  · refine .inl ⟨hc, ?_⟩
    unfold buildRequestPacket
    rw [if_pos]
    rw [buildPacket_prePatch_length data]
    exact hc
  · refine .inr ⟨le_of_not_lt hc, ?_⟩
    unfold buildRequestPacket
    rw [if_neg]
    · have hlen : (protocolBytes ++ [protocolFlagZabbixCommunications] ++ encodeU32LE 0
          ++ encodeU32LE 0 ++ requestPayloadBytes data).length - headerLen
          = (requestPayloadBytes data).length := by
        rw [buildPacket_prePatch_length data]; omega
      rw [hlen]
      have hmod : (requestPayloadBytes data).length % 4294967296
          = (requestPayloadBytes data).length := by
        apply Nat.mod_eq_of_lt
        simp only [nonLargePacketSizeLimit, headerLen, dataLenOffset, dataLenLen,
          reservedLen] at hc
        omega
      rw [hmod]
      rfl
    · rw [buildPacket_prePatch_length data]
      exact hc

/-- **C1.** For every batch (including the empty one) for which
`buildRequestPacket` returns a packet, the packet starts with the
13-byte header: bytes 0-3 are the ASCII magic ZBXD, byte 4 is 0x01,
bytes 9-12 are zero, and the little-endian uint32 at bytes 5-8 equals
the byte length of the JSON payload following the header. -/
theorem buildRequestPacket_header_and_length (data : List TrapperData)
    (packet : List Nat) (h : buildRequestPacket data = .ok packet) :
    packet.take 4 = protocolBytes ∧
    packet.getD 4 0 = protocolFlagZabbixCommunications ∧
    (packet.drop 9).take 4 = [0, 0, 0, 0] ∧
    decodeU32LE ((packet.drop 5).take 4) = (packet.drop headerLen).length := by
  rcases buildRequestPacket_cases data with ⟨_, he⟩ | ⟨hle, hok⟩
  · rw [he] at h; exact Except.noConfusion h
  · rw [hok] at h
    injection h with h
    subst h
    have hlt : (requestPayloadBytes data).length < 4294967296 := by
      simp only [nonLargePacketSizeLimit, headerLen, dataLenOffset, dataLenLen,
        reservedLen] at hle
      omega
    refine ⟨rfl, rfl, rfl, ?_⟩
    show decodeU32LE (encodeU32LE (requestPayloadBytes data).length)
        = (requestPayloadBytes data).length
    exact decodeU32LE_encodeU32LE _ hlt

/-- Witness for C1: the empty batch builds a packet, and the
header/length theorem holds for it. -/
theorem buildRequestPacket_header_and_length_witness :
    buildRequestPacket [] = .ok emptyBatchPacket ∧
    (emptyBatchPacket.take 4 = protocolBytes ∧
      emptyBatchPacket.getD 4 0 = protocolFlagZabbixCommunications ∧
      (emptyBatchPacket.drop 9).take 4 = [0, 0, 0, 0] ∧
      decodeU32LE ((emptyBatchPacket.drop 5).take 4)
        = (emptyBatchPacket.drop headerLen).length) :=
  ⟨rfl, buildRequestPacket_header_and_length [] emptyBatchPacket rfl⟩

/-- **C5.** `buildRequestPacket` fails, with exactly the error
`ErrRequestPacketSizeLimitExeeded`, if and only if the total assembled
packet size (13-byte header plus JSON payload) exceeds 1 GiB; the check
is applied to the length of the fully assembled packet. -/
theorem buildRequestPacket_size_limit (data : List TrapperData) :
    buildRequestPacket data = .error ErrRequestPacketSizeLimitExeeded ↔
    headerLen + (requestPayloadBytes data).length > nonLargePacketSizeLimit := by
  rcases buildRequestPacket_cases data with ⟨hgt, he⟩ | ⟨hle, hok⟩
  · exact ⟨fun _ => hgt, fun _ => he⟩
  · constructor
    · intro h
      rw [hok] at h
      exact Except.noConfusion h
    · intro h
      omega

/-- **C10.** The wire payload produced by `buildRequestPacket` is the
compact JSON document followed by a single newline byte (10), and the
header's length field counts that newline: it equals the compact JSON
length plus one. -/
theorem buildRequestPacket_trailing_newline (data : List TrapperData)
    (packet : List Nat) (h : buildRequestPacket data = .ok packet) :
    packet.drop headerLen = requestJSONBytes data ++ [10] ∧
    decodeU32LE ((packet.drop 5).take 4) = (requestJSONBytes data).length + 1 := by
  rcases buildRequestPacket_cases data with ⟨_, he⟩ | ⟨hle, hok⟩
  · rw [he] at h; exact Except.noConfusion h
  · rw [hok] at h
    injection h with h
    subst h
    have hlt : (requestPayloadBytes data).length < 4294967296 := by
      simp only [nonLargePacketSizeLimit, headerLen, dataLenOffset, dataLenLen,
        reservedLen] at hle
      omega
    constructor
    · rfl
    · show decodeU32LE (encodeU32LE (requestPayloadBytes data).length)
          = (requestJSONBytes data).length + 1
      rw [decodeU32LE_encodeU32LE _ hlt]
      simp [requestPayloadBytes]

/-- Witness for C10: the empty batch. -/
theorem buildRequestPacket_trailing_newline_witness :
    buildRequestPacket [] = .ok emptyBatchPacket ∧
    (emptyBatchPacket.drop headerLen = requestJSONBytes [] ++ [10] ∧
      decodeU32LE ((emptyBatchPacket.drop 5).take 4) = (requestJSONBytes []).length + 1) :=
  ⟨rfl, buildRequestPacket_trailing_newline [] emptyBatchPacket rfl⟩

/-! ### Structure of `parseResponse` on well-formed frames -/

theorem parseResponseAux_mkFrame (body : List Nat) (h : body.length < 4294967296) :
    parseResponseAux (mkFrame body) =
      (match jsonUnmarshalResponse body with
      | .error e =>
        { result := .error ("unmarshal response: " ++ e),
          consumed := headerLen + body.length }
      | .ok resp =>
        match scanInfo resp.Info with
        | .error e =>
          { result := .error ("parse response info: " ++ e),
            consumed := headerLen + body.length }
        | .ok v =>
          { result := .ok { resp with Processed := v.1, Failed := v.2.1, Total := v.2.2.1, SecondsSpent := v.2.2.2 }, consumed := headerLen + body.length }) := by
  have hlen : (mkFrame body).length = headerLen + body.length := by
    simp [mkFrame, protocolBytes, protocolFlagZabbixCommunications, encodeU32LE, headerLen,
      dataLenOffset, dataLenLen, reservedLen]
    omega
  have h13 : headerLen = 13 := rfl
  have hnotshort : ¬ ((mkFrame body).length < headerLen) := by
    rw [hlen, h13]; omega
  have hpre : List.isPrefixOf protocolBytes ((mkFrame body).take headerLen) = true := rfl
  have hflag : ((mkFrame body).take headerLen).getD 4 0 = protocolFlagZabbixCommunications := rfl
  have hdl : decodeU32LE ((((mkFrame body).take headerLen).drop dataLenOffset).take dataLenLen)
      = body.length := by
    show decodeU32LE (encodeU32LE body.length) = body.length
    exact decodeU32LE_encodeU32LE body.length h
  have hrest : (mkFrame body).drop headerLen = body := rfl
  simp only [parseResponseAux]
  rw [if_neg hnotshort, if_neg (not_not_intro hpre), if_neg (not_not_intro hflag), hdl, hrest,
    if_neg (Nat.lt_irrefl body.length), List.take_length]

/-- Composition helper: a well-formed frame whose body unmarshals and
whose info string scans successfully parses to the populated
`Response`. -/
theorem parseResponse_mkFrame_scan_ok (body : List Nat) (resp : Zabbix.Response)
    (p f t : Int) (q : ℚ)
    (hsize : body.length < 4294967296)
    (hum : jsonUnmarshalResponse body = .ok resp)
    (hscan : scanInfo resp.Info = .ok (p, f, t, q)) :
    parseResponse (mkFrame body) = .ok
      { resp with Processed := p, Failed := f, Total := t, SecondsSpent := q } := by
  show (parseResponseAux (mkFrame body)).result = _
  rw [parseResponseAux_mkFrame body hsize]
  simp only [hum, hscan]

/-- Composition helper: a well-formed frame whose body unmarshals but
whose info string fails the template scan yields the info-parse
error. -/
theorem parseResponse_mkFrame_scan_error (body : List Nat) (resp : Zabbix.Response) (e : String)
    (hsize : body.length < 4294967296)
    (hum : jsonUnmarshalResponse body = .ok resp)
    (hscan : scanInfo resp.Info = .error e) :
    parseResponse (mkFrame body) = .error ("parse response info: " ++ e) := by
  show (parseResponseAux (mkFrame body)).result = _
  rw [parseResponseAux_mkFrame body hsize]
  simp only [hum, hscan]

theorem take_four_of_take_headerLen (s : List Nat) :
    (s.take headerLen).take 4 = s.take 4 := by
  rw [List.take_take]
  norm_num [headerLen, dataLenOffset, dataLenLen, reservedLen]

theorem parseResponseAux_bad_magic (s : List Nat) (hlen : headerLen ≤ s.length)
    (h4 : s.take 4 ≠ protocolBytes) :
    parseResponseAux s
      = { result := .error "unexpected response protocol", consumed := headerLen } := by
  have hns : ¬ (s.length < headerLen) := not_lt.mpr hlen
  have hpre : ¬ (List.isPrefixOf protocolBytes (s.take headerLen) = true) := by
    intro hc
    rw [List.isPrefixOf_iff_prefix, List.prefix_iff_eq_take] at hc
    apply h4
    have h4len : protocolBytes.length = 4 := rfl
    rw [h4len, take_four_of_take_headerLen] at hc
    exact hc.symm
  simp only [parseResponseAux]
  rw [if_neg hns, if_pos hpre]

theorem parseResponseAux_bad_flag (s : List Nat) (hlen : headerLen ≤ s.length)
    (h4 : s.take 4 = protocolBytes)
    (h5 : s.getD 4 0 ≠ protocolFlagZabbixCommunications) :
    parseResponseAux s
      = { result := .error "unsupported response protocol flag", consumed := headerLen } := by
  have hns : ¬ (s.length < headerLen) := not_lt.mpr hlen
  have hpre : List.isPrefixOf protocolBytes (s.take headerLen) = true := by
    rw [List.isPrefixOf_iff_prefix, List.prefix_iff_eq_take]
    have h4len : protocolBytes.length = 4 := rfl
    rw [h4len, take_four_of_take_headerLen]
    exact h4.symm
  have hgetD : (s.take headerLen).getD 4 0 = s.getD 4 0 := by
    simp only [List.getD, List.getElem?_take]
    norm_num [headerLen, dataLenOffset, dataLenLen, reservedLen]
  simp only [parseResponseAux]
  rw [if_neg hns, if_neg (not_not_intro hpre), if_pos]
  rw [hgetD]
  exact h5

/-- **C2** (amended: the stream must contain at least the 13 header
bytes; a shorter stream fails with the header-read error instead).
A stream of at least 13 bytes whose first 4 bytes differ from the magic
fails with the "unexpected response protocol" error; one with the
correct magic but a 5th byte different from 0x01 fails with the
"unsupported response protocol flag" error; in both cases no more than
the 13 header bytes are consumed. -/
theorem parseResponse_header_validation (s : List Nat) (hlen : headerLen ≤ s.length) :
    (s.take 4 ≠ protocolBytes →
      parseResponse s = .error "unexpected response protocol"
        ∧ parseResponseConsumed s ≤ headerLen)
    ∧ (s.take 4 = protocolBytes → s.getD 4 0 ≠ protocolFlagZabbixCommunications →
      parseResponse s = .error "unsupported response protocol flag"
        ∧ parseResponseConsumed s ≤ headerLen) := by
  constructor
  · intro h4
    have h := parseResponseAux_bad_magic s hlen h4
    exact ⟨congrArg ParseOutcome.result h, le_of_eq (congrArg ParseOutcome.consumed h)⟩
  · intro h4 h5
    have h := parseResponseAux_bad_flag s hlen h4 h5
    exact ⟨congrArg ParseOutcome.result h, le_of_eq (congrArg ParseOutcome.consumed h)⟩

/-- Witness for C2: a 13-byte stream with wrong magic and one with the
right magic but wrong flag byte. -/
theorem parseResponse_header_validation_witness :
    parseResponse [65, 66, 67, 68, 1, 0, 0, 0, 0, 0, 0, 0, 0]
        = .error "unexpected response protocol"
    ∧ parseResponse [90, 66, 88, 68, 2, 0, 0, 0, 0, 0, 0, 0, 0]
        = .error "unsupported response protocol flag" :=
  ⟨((parseResponse_header_validation [65, 66, 67, 68, 1, 0, 0, 0, 0, 0, 0, 0, 0]
      (by decide)).1 (by decide)).1,
   (((parseResponse_header_validation [90, 66, 88, 68, 2, 0, 0, 0, 0, 0, 0, 0, 0]
      (by decide)).2 (by decide)) (by decide)).1⟩

/-- Counterexample to C2 as stated: a 4-byte stream whose first 4 bytes
differ from the magic is rejected with the header-read error, not the
"unexpected response protocol" error. -/
theorem parseResponse_short_wrong_magic_counterexample :
    List.take 4 [65, 66, 67, 68] ≠ protocolBytes
    ∧ parseResponse [65, 66, 67, 68] = .error "read response header: unexpected EOF"
    ∧ parseResponse [65, 66, 67, 68] ≠ .error "unexpected response protocol" :=
  ⟨by decide, rfl, by decide⟩

/-- **C3.** Parsing the test vector of `sender_test.go` (a well-formed
frame whose JSON body is the success response with info
"processed: 1; failed: 0; total: 1; seconds spent: 0.060753") yields
Processed=1, Failed=0, Total=1, SecondsSpent=0.060753 exactly, and
`IsSucccess` of that `Response` is true. -/
theorem parseResponse_success_vector :
    parseResponse testResponseStream = .ok
      { Response := "success", Info := testResponseInfo,
        Processed := 1, Failed := 0, Total := 1, SecondsSpent := 60753 / 1000000 }
    ∧ Response.IsSucccess
      { Response := "success", Info := testResponseInfo,
        Processed := 1, Failed := 0, Total := 1, SecondsSpent := 60753 / 1000000 } = true := by
  have hq : (1 : ℚ) * ((Nat.cast 0 : ℚ) + (Nat.cast 60753 : ℚ) / 10 ^ 6) = 60753 / 1000000 := by
    norm_num
  have hum : jsonUnmarshalResponse testResponseJSON
      = .ok { Response.zero with Response := "success", Info := testResponseInfo } := by decide
  have hscan : scanInfo testResponseInfo
      = .ok (1, 0, 1, (1 : ℚ) * ((Nat.cast 0 : ℚ) + (Nat.cast 60753 : ℚ) / 10 ^ 6)) := rfl
  have h := parseResponse_mkFrame_scan_ok testResponseJSON
    { Response.zero with Response := "success", Info := testResponseInfo }
    1 0 1 ((1 : ℚ) * ((Nat.cast 0 : ℚ) + (Nat.cast 60753 : ℚ) / 10 ^ 6))
    (by decide) hum hscan
  rw [hq] at h
  have hstream : testResponseStream = mkFrame testResponseJSON := rfl
  rw [hstream, h]
  exact ⟨rfl, rfl⟩

/-- **C6.** `IsSucccess` returns true exactly when the status string is
the literal "success" and the `Failed` counter is zero. -/
theorem IsSucccess_iff (r : Zabbix.Response) :
    Response.IsSucccess r = true ↔ (r.Response = "success" ∧ r.Failed = 0) := by
  simp [Response.IsSucccess, Bool.and_eq_true, beq_iff_eq]

/-- **C7.** A well-formed frame whose body unmarshals to a `Response`
whose info string fails the four-value template scan makes
`parseResponse` return the info-parse error — never a (partially
populated) `Response`. -/
theorem parseResponse_info_scan_failure (body : List Nat) (resp : Zabbix.Response) (e : String)
    (hsize : body.length < 4294967296)
    (hum : jsonUnmarshalResponse body = .ok resp)
    (hscan : scanInfo resp.Info = .error e) :
    parseResponse (mkFrame body) = .error ("parse response info: " ++ e) :=
  parseResponse_mkFrame_scan_error body resp e hsize hum hscan

/-- Witness for C7: an info string carrying only three of the four
values (the spec's negative case). -/
theorem parseResponse_info_scan_failure_witness :
    jsonUnmarshalResponse shortInfoBody = .ok shortInfoResp
    ∧ scanInfo shortInfoResp.Info = .error "unexpected EOF"
    ∧ parseResponse (mkFrame shortInfoBody)
        = .error ("parse response info: " ++ "unexpected EOF") :=
  ⟨by decide, by decide,
    parseResponse_info_scan_failure shortInfoBody shortInfoResp "unexpected EOF"
      (by decide) (by decide) (by decide)⟩

/-- Counterexample to C8 as stated: for the info string "zzz" the
info-parse error is "parse response info: input does not match format",
which does not contain the raw info string. -/
theorem parseResponse_info_error_counterexample :
    parseResponse (mkFrame bogusInfoBody)
      = .error "parse response info: input does not match format"
    ∧ ¬ List.IsInfix "zzz".data "parse response info: input does not match format".data :=
  ⟨rfl, by decide⟩

/-- **C8** (amended: the error carries the info-parse context and the
underlying scanner error, but not the raw info string itself).  When
the info string fails the template scan, the error message begins with
"parse response info: " followed by the scanner's error. -/
theorem parseResponse_info_error_context (body : List Nat) (resp : Zabbix.Response) (e : String)
    (hsize : body.length < 4294967296)
    (hum : jsonUnmarshalResponse body = .ok resp)
    (hscan : scanInfo resp.Info = .error e) :
    ∃ msg, parseResponse (mkFrame body) = .error msg
      ∧ List.isPrefixOf "parse response info: ".data msg.data = true := by
  refine ⟨"parse response info: " ++ e,
    parseResponse_mkFrame_scan_error body resp e hsize hum hscan, ?_⟩
  rw [List.isPrefixOf_iff_prefix]
  show ("parse response info: ").data <+: ("parse response info: " ++ e).data
  rw [String.data_append]
  exact List.prefix_append _ _

/-- Witness for C8's amended claim at the "zzz" info string. -/
theorem parseResponse_info_error_context_witness :
    ∃ msg, parseResponse (mkFrame bogusInfoBody) = .error msg
      ∧ List.isPrefixOf "parse response info: ".data msg.data = true :=
  parseResponse_info_error_context bogusInfoBody bogusInfoResp "input does not match format"
    (by decide) (by decide) (by decide)

/-! ### Address normalization -/

theorem lastIndexOfChar_eq_none (cs : List Char) (c : Char) (h : cs.contains c = false) :
    lastIndexOfChar cs c = none := by
  unfold lastIndexOfChar
  have hf : cs.reverse.findIdx? (fun x => x == c) = none := by
    rw [List.findIdx?_eq_none_iff]
    intro x hx
    rw [List.mem_reverse] at hx
    cases hbe : x == c
    · rfl
    · exfalso
      have hc : c ∈ cs := by rwa [eq_of_beq hbe] at hx
      rw [← List.elem_iff] at hc
      rw [show cs.contains c = cs.elem c from rfl, hc] at h
      exact Bool.noConfusion h
  rw [hf]

/-- **C9.** Address normalization: the two concrete cases of the spec,
and in general an address `net.SplitHostPort` accepts is unchanged
while a colon-free address gets ":10051" appended. -/
theorem addDefaultPort_normalization :
    addDefaultPortToAddressIfNeeded "host" = "host:10051"
    ∧ addDefaultPortToAddressIfNeeded "host:1234" = "host:1234"
    ∧ (∀ addr : String, (splitHostPort addr).isOk = true →
        addDefaultPortToAddressIfNeeded addr = addr)
    ∧ (∀ addr : String, addr.data.contains (Char.ofNat 58) = false →
        addDefaultPortToAddressIfNeeded addr = addr ++ ":10051") := by
  refine ⟨by decide, by decide, ?_, ?_⟩
  · intro addr h
    cases hsp : splitHostPort addr with
    | error e => rw [hsp] at h; simp [Except.isOk, Except.toBool] at h
    | ok v => simp only [addDefaultPortToAddressIfNeeded, hsp]
  · intro addr h
    have hsplit : splitHostPort addr = .error "missing port in address" := by
      simp only [splitHostPort, lastIndexOfChar_eq_none addr.data (Char.ofNat 58) h]
    simp only [addDefaultPortToAddressIfNeeded, hsplit, joinHostPort]
    rw [if_neg (by rw [h]; exact Bool.false_ne_true)]
    rw [String.append_assoc]
    congr 1

/-- Witness for C9's general clauses. -/
theorem addDefaultPort_normalization_witness :
    addDefaultPortToAddressIfNeeded "x:1" = "x:1"
    ∧ addDefaultPortToAddressIfNeeded "abc" = "abc" ++ ":10051" :=
  ⟨addDefaultPort_normalization.2.2.1 "x:1" (by decide),
   addDefaultPort_normalization.2.2.2 "abc" (by decide)⟩

set_option maxRecDepth 8192 in
/-- **C4** (the `TrapperData` struct of `sender.go` has no timestamp
fields): a sample serializes to exactly the three members host, key,
value; the quoted member names "clock" and "ns" occur nowhere in the
outbound payload, although `cmd/zabbixsend/main.go` sets `Clock` and
`Ns` on `TrapperData` (so the repository as given does not compile)
and the spec's payload shape includes both optional fields. -/
theorem trapperData_serialization_no_timestamp :
    trapperDataJSONBytes { Host := "h", Key := "k", Value := "v" }
      = [123] ++ strBytes "\"host\":\"h\",\"key\":\"k\",\"value\":\"v\"" ++ [125]
    ∧ ¬ List.IsInfix (strBytes "\"clock\"")
        (requestPayloadBytes [{ Host := "h", Key := "k", Value := "v" }])
    ∧ ¬ List.IsInfix (strBytes "\"ns\"")
        (requestPayloadBytes [{ Host := "h", Key := "k", Value := "v" }]) :=
  ⟨by decide, by decide, by decide⟩

end Zabbix
